import Mathlib

/-!
Shallow embedding of `src/threads/threads.c` (portable thread spawning for
loops).

`X(spawn_loop)(loopmax, nthr, proc, data)` distributes the loop `[0, loopmax)`
over threads.  We model one call as the list of events it performs, in program
order: `Event.spawn d` for a call to `fftw_thr_spawn` handing the range `d` to
a freshly created thread, `Event.callSync d` for a direct invocation
`proc(&d)` in the calling thread, and `Event.callPar d` for an invocation of
`proc(&d)` inside a compiler-managed parallel region (OpenMP / SGI MP builds).

A `spawn_data` record keeps the fields `min`, `max`, `thr_num` of the C
struct; the fourth field `data` is an opaque pointer stored unchanged into
every record (`d.data = data;` resp. `d[i].data = data;`) and plays no role in
the partitioning, so it is not modelled.

All `uint` arithmetic is modelled on `Nat`.  For the quantities the claims
range over, the intermediate values (`loopmax + nthr - 1`,
`i * block_size + block_size`) never exceed `2 * loopmax`-ish magnitudes, so
no unsigned wraparound is involved on the modelled domain.
-/

namespace SpawnLoop

/-- The `spawn_data` struct of `threads.h` (lines 30-33), without the opaque
pass-through pointer `data`.  `min`/`max` delimit the half-open iteration
range `[min, max)`, and `thr_num` is the number of the executing thread. -/
structure spawn_data where
  min : Nat
  max : Nat
  thr_num : Nat
  deriving DecidableEq

/-- One observable action of a call to `X(spawn_loop)`:
`spawn d` is `fftw_thr_spawn(&tid[i], proc, &d[i])`,
`callSync d` is a direct call `proc(&d)` in the calling thread, and
`callPar d` is a call `proc(&d)` inside the compiler-managed parallel
region of the OpenMP / SGI MP builds. -/
inductive Event where
  | spawn (d : spawn_data)
  | callSync (d : spawn_data)
  | callPar (d : spawn_data)
  deriving DecidableEq

/-- The iteration range an event hands to the work function. -/
def Event.range : Event → spawn_data
  | .spawn d => d
  | .callSync d => d
  | .callPar d => d

/-- Whether an event creates a worker thread. -/
def Event.isSpawn : Event → Bool
  | .spawn _ => true
  | _ => false

/-- The sequence of iteration ranges handed out by a sequence of events. -/
def ranges (evs : List Event) : List spawn_data := evs.map Event.range

/-- `x` lies in the half-open range `[d.min, d.max)`. -/
def inRange (d : spawn_data) (x : Nat) : Prop := d.min ≤ x ∧ x < d.max

instance (d : spawn_data) (x : Nat) : Decidable (inRange d x) := by
  unfold inRange; infer_instance

/-- `block_size = (loopmax + nthr - 1) / nthr;` (threads.c line 294). -/
def block_size (loopmax nthr : Nat) : Nat := (loopmax + nthr - 1) / nthr

/-- `nthr = (loopmax + block_size - 1) / block_size;` (threads.c line 295):
the adjusted worker count actually used. -/
def adjusted_nthr (loopmax nthr : Nat) : Nat :=
  (loopmax + block_size loopmax nthr - 1) / block_size loopmax nthr

/-- Event trace of the `HAVE_THREADS` body of `X(spawn_loop)` in the
explicit-thread-spawning build (threads.c lines 294-359, the
`! USING_COMPILER_THREADS` branch), after the two `A(...)` assertions.
If the adjusted `nthr ≤ 1` the work function is called once, directly, on
`[0, loopmax)` with `thr_num = 0` (lines 297-303).  Otherwise `nthr` is
decremented (line 339), the loop at lines 341-347 spawns one thread per
`i < nthr` on the unclamped range `[i*block_size, i*block_size+block_size)`,
and lines 348-352 run the final range `[i*block_size, loopmax)` directly in
the calling thread. -/
def spawn_loop_explicit_body (loopmax nthr : Nat) : List Event :=
  let bs := block_size loopmax nthr
  let nt := adjusted_nthr loopmax nthr
  if nt ≤ 1 then
    [Event.callSync ⟨0, loopmax, 0⟩]
  else
    (List.range (nt - 1)).map (fun i => Event.spawn ⟨i * bs, i * bs + bs, i⟩) ++
      [Event.callSync ⟨(nt - 1) * bs, loopmax, nt - 1⟩]

/-- Event trace of the `HAVE_THREADS` body of `X(spawn_loop)` in the
compiler-managed-parallel-region build (`USING_COMPILER_THREADS`, threads.c
lines 315-334): for every `i < nthr` (adjusted) the range is
`[i*block_size, i*block_size+block_size)` clamped to `loopmax`
(`if (d.max > loopmax) d.max = loopmax;`), executed by the parallel
region. -/
def spawn_loop_compiler_body (loopmax nthr : Nat) : List Event :=
  let bs := block_size loopmax nthr
  let nt := adjusted_nthr loopmax nthr
  if nt ≤ 1 then
    [Event.callSync ⟨0, loopmax, 0⟩]
  else
    (List.range nt).map (fun i =>
      Event.callPar ⟨i * bs, if i * bs + bs > loopmax then loopmax else i * bs + bs, i⟩)

/-- Modelled from the spec: the `A(...)` macro used at threads.c lines
286-287 is defined in `ifftw.h`, which is not among the sources; the spec
describes it as a defensive assertion that catches `loopmax == 0` or
`nthr == 0` as a caller contract error.  We model an assertion failure as
`none`, and a completed call as `some` of its event trace.
`X(spawn_loop)`, explicit-thread-spawning build. -/
def spawn_loop_explicit (loopmax nthr : Nat) : Option (List Event) :=
  if 0 < loopmax ∧ 0 < nthr then some (spawn_loop_explicit_body loopmax nthr) else none

/-- `X(spawn_loop)`, compiler-managed-parallel-region build, with the same
`A(...)` assertions (threads.c lines 286-287) modelled as in
`spawn_loop_explicit`. -/
def spawn_loop_compiler (loopmax nthr : Nat) : Option (List Event) :=
  if 0 < loopmax ∧ 0 < nthr then some (spawn_loop_compiler_body loopmax nthr) else none

/-- The `! HAVE_THREADS` variant of `X(spawn_loop)` (threads.c lines
366-377): `nthr` is ignored (`UNUSED(nthr);`), no assertion is performed, and
the work function is called once, directly, on `[0, loopmax)` with
`thr_num = 0`. -/
def spawn_loop_nothreads (loopmax nthr : Nat) : Option (List Event) :=
  some [Event.callSync ⟨0, loopmax, 0⟩]

/-- Return value of `X(threads_init)` when no threading backend is compiled
in (`! HAVE_THREADS`, threads.c line 465): the distinguished status
`-31416`. -/
def threads_init_nothreads : Int := -31416

/-- Return value of `X(threads_init)` on the `HAVE_THREADS` success path
(threads.c line 463). -/
def threads_init_threaded_ok : Int := 0

/-- The range the compiler-managed path computes for index `i`
(threads.c lines 324-331), written with `min`: the canonical clamped form
`[i*block_size, min ((i+1)*block_size) loopmax)`. -/
def clampedRange (loopmax nthr i : Nat) : spawn_data :=
  ⟨i * block_size loopmax nthr,
   min ((i + 1) * block_size loopmax nthr) loopmax, i⟩

end SpawnLoop

namespace SpawnLoop

/-! ### Arithmetic facts about the two ceiling divisions -/

lemma ceil_div_eq (a b : Nat) (ha : 0 < a) (hb : 0 < b) :
    (a + b - 1) / b = (a - 1) / b + 1 := by
  have h : a + b - 1 = (a - 1) + b := by omega
  rw [h, Nat.add_div_right _ hb]

lemma le_ceil_mul (a b : Nat) (ha : 0 < a) (hb : 0 < b) :
    a ≤ ((a + b - 1) / b) * b := by
  rw [ceil_div_eq a b ha hb]
  have h := Nat.lt_mul_div_succ (a - 1) hb
  calc a = (a - 1) + 1 := by omega
    _ ≤ b * ((a - 1) / b + 1) := h
    _ = ((a - 1) / b + 1) * b := Nat.mul_comm _ _

lemma ceil_le_of_le_mul (a b m : Nat) (hb : 0 < b) (h : a ≤ m * b) :
    (a + b - 1) / b ≤ m := by
  rw [Nat.div_le_iff_le_mul_add_pred hb, Nat.mul_comm b m]
  omega

lemma block_size_pos {loopmax nthr : Nat} (hL : 0 < loopmax) (hn : 0 < nthr) :
    0 < block_size loopmax nthr :=
  (Nat.one_le_div_iff hn).mpr (by omega)

lemma adjusted_nthr_pos {loopmax nthr : Nat} (hL : 0 < loopmax) (hn : 0 < nthr) :
    0 < adjusted_nthr loopmax nthr :=
  (Nat.one_le_div_iff (block_size_pos hL hn)).mpr
    (by have := block_size_pos hL hn; omega)

lemma loopmax_le_adjusted_mul {loopmax nthr : Nat} (hL : 0 < loopmax) (hn : 0 < nthr) :
    loopmax ≤ adjusted_nthr loopmax nthr * block_size loopmax nthr :=
  le_ceil_mul loopmax (block_size loopmax nthr) hL (block_size_pos hL hn)

lemma adjusted_nthr_le_nthr {loopmax nthr : Nat} (hL : 0 < loopmax) (hn : 0 < nthr) :
    adjusted_nthr loopmax nthr ≤ nthr := by
  apply ceil_le_of_le_mul _ _ _ (block_size_pos hL hn)
  have h := le_ceil_mul loopmax nthr hL hn
  rw [Nat.mul_comm]
  exact h

lemma adjusted_nthr_le_loopmax {loopmax nthr : Nat} (hL : 0 < loopmax) (hn : 0 < nthr) :
    adjusted_nthr loopmax nthr ≤ loopmax := by
  unfold adjusted_nthr
  rw [ceil_div_eq loopmax _ hL (block_size_pos hL hn)]
  have h := Nat.div_le_self (loopmax - 1) (block_size loopmax nthr)
  omega

lemma pred_adjusted_mul_lt {loopmax nthr : Nat} (hL : 0 < loopmax) (hn : 0 < nthr) :
    (adjusted_nthr loopmax nthr - 1) * block_size loopmax nthr < loopmax := by
  have hbs := block_size_pos hL hn
  have hnt : adjusted_nthr loopmax nthr - 1 = (loopmax - 1) / block_size loopmax nthr := by
    unfold adjusted_nthr
    rw [ceil_div_eq loopmax _ hL hbs]
    exact Nat.add_sub_cancel _ _
  rw [hnt]
  calc (loopmax - 1) / block_size loopmax nthr * block_size loopmax nthr
      ≤ loopmax - 1 := Nat.div_mul_le_self _ _
    _ < loopmax := by omega

end SpawnLoop

namespace SpawnLoop

/-! ### The canonical clamped form of the produced ranges -/

lemma clampedRange_eq_unclamped {loopmax nthr i : Nat} (hL : 0 < loopmax) (hn : 0 < nthr)
    (hi : i < adjusted_nthr loopmax nthr - 1) :
    clampedRange loopmax nthr i =
      ⟨i * block_size loopmax nthr,
       i * block_size loopmax nthr + block_size loopmax nthr, i⟩ := by
  have hlt : (i + 1) * block_size loopmax nthr < loopmax := by
    calc (i + 1) * block_size loopmax nthr
        ≤ (adjusted_nthr loopmax nthr - 1) * block_size loopmax nthr :=
          Nat.mul_le_mul_right _ (by omega)
      _ < loopmax := pred_adjusted_mul_lt hL hn
  unfold clampedRange
  rw [min_eq_left (Nat.le_of_lt hlt), Nat.succ_mul]

lemma clampedRange_last {loopmax nthr : Nat} (hL : 0 < loopmax) (hn : 0 < nthr) :
    clampedRange loopmax nthr (adjusted_nthr loopmax nthr - 1) =
      ⟨(adjusted_nthr loopmax nthr - 1) * block_size loopmax nthr, loopmax,
       adjusted_nthr loopmax nthr - 1⟩ := by
  have hnt := adjusted_nthr_pos hL hn
  have h : (adjusted_nthr loopmax nthr - 1 + 1) * block_size loopmax nthr =
      adjusted_nthr loopmax nthr * block_size loopmax nthr := by
    congr 1
    omega
  unfold clampedRange
  rw [h, min_eq_right (loopmax_le_adjusted_mul hL hn)]

lemma clampedRange_zero_of_one {loopmax nthr : Nat} (hL : 0 < loopmax) (hn : 0 < nthr)
    (hone : adjusted_nthr loopmax nthr = 1) :
    clampedRange loopmax nthr 0 = ⟨0, loopmax, 0⟩ := by
  have h := clampedRange_last hL hn
  rw [hone] at h
  simpa using h

lemma explicit_ranges_eq {loopmax nthr : Nat} (hL : 0 < loopmax) (hn : 0 < nthr) :
    ranges (spawn_loop_explicit_body loopmax nthr) =
      (List.range (adjusted_nthr loopmax nthr)).map (clampedRange loopmax nthr) := by
  have hnt := adjusted_nthr_pos hL hn
  unfold spawn_loop_explicit_body ranges
  by_cases h1 : adjusted_nthr loopmax nthr ≤ 1
  · have hone : adjusted_nthr loopmax nthr = 1 := by omega
    rw [if_pos h1, hone]
    simp only [List.range_succ, List.range_zero, List.nil_append, List.map_cons,
      List.map_nil, Event.range]
    rw [clampedRange_zero_of_one hL hn hone]
  · rw [if_neg h1]
    have hsplit : adjusted_nthr loopmax nthr =
        (adjusted_nthr loopmax nthr - 1) + 1 := by omega
    rw [hsplit, List.range_succ, List.map_append, List.map_append, List.map_map]
    congr 1
    · apply List.map_congr_left
      intro i hi
      rw [List.mem_range] at hi
      simp only [Function.comp, Event.range]
      rw [clampedRange_eq_unclamped hL hn (by omega)]
    · simp only [List.map_cons, List.map_nil, Event.range]
      rw [show (adjusted_nthr loopmax nthr - 1 + 1) - 1 =
            adjusted_nthr loopmax nthr - 1 from Nat.add_sub_cancel _ _,
          clampedRange_last hL hn]

lemma compiler_ranges_eq {loopmax nthr : Nat} (hL : 0 < loopmax) (hn : 0 < nthr) :
    ranges (spawn_loop_compiler_body loopmax nthr) =
      (List.range (adjusted_nthr loopmax nthr)).map (clampedRange loopmax nthr) := by
  have hnt := adjusted_nthr_pos hL hn
  unfold spawn_loop_compiler_body ranges
  by_cases h1 : adjusted_nthr loopmax nthr ≤ 1
  · have hone : adjusted_nthr loopmax nthr = 1 := by omega
    rw [if_pos h1, hone]
    simp only [List.range_succ, List.range_zero, List.nil_append, List.map_cons,
      List.map_nil, Event.range]
    rw [clampedRange_zero_of_one hL hn hone]
  · rw [if_neg h1, List.map_map]
    apply List.map_congr_left
    intro i hi
    simp only [Function.comp, Event.range]
    unfold clampedRange
    have harith : (i + 1) * block_size loopmax nthr =
        i * block_size loopmax nthr + block_size loopmax nthr := Nat.succ_mul _ _
    rw [harith, Nat.min_def]
    congr 1
    split
    · next hle => rw [if_neg (by omega)]
    · next hgt => rw [if_pos (by omega)]

end SpawnLoop

namespace SpawnLoop

/-! ### Partition properties of the canonical range list -/

lemma canonical_pairwise {loopmax nthr : Nat} (hL : 0 < loopmax) (hn : 0 < nthr) :
    List.Pairwise
      (fun a b => (∀ x : Nat, ¬(inRange a x ∧ inRange b x)) ∧ a.thr_num < b.thr_num)
      ((List.range (adjusted_nthr loopmax nthr)).map (clampedRange loopmax nthr)) := by
  rw [List.pairwise_map]
  refine (List.pairwise_lt_range _).imp ?_
  intro i j hij
  refine ⟨?_, hij⟩
  rintro x ⟨⟨hi1, hi2⟩, hj1, hj2⟩
  have h1 : x < (i + 1) * block_size loopmax nthr :=
    lt_of_lt_of_le hi2 (min_le_left _ _)
  have h2 : (i + 1) * block_size loopmax nthr ≤ j * block_size loopmax nthr :=
    Nat.mul_le_mul_right _ (by omega)
  have h3 : j * block_size loopmax nthr ≤ x := hj1
  omega

lemma canonical_cover {loopmax nthr : Nat} (hL : 0 < loopmax) (hn : 0 < nthr) (x : Nat) :
    x < loopmax ↔
      ∃ d ∈ (List.range (adjusted_nthr loopmax nthr)).map (clampedRange loopmax nthr),
        inRange d x := by
  have hbs := block_size_pos hL hn
  constructor
  · intro hx
    refine ⟨clampedRange loopmax nthr (x / block_size loopmax nthr),
      List.mem_map.mpr ⟨x / block_size loopmax nthr, List.mem_range.mpr ?_, rfl⟩, ?_, ?_⟩
    · rw [Nat.div_lt_iff_lt_mul hbs]
      exact lt_of_lt_of_le hx (loopmax_le_adjusted_mul hL hn)
    · exact Nat.div_mul_le_self x _
    · apply lt_min
      · have h := Nat.lt_div_mul_add (a := x) hbs
        have h2 : (x / block_size loopmax nthr + 1) * block_size loopmax nthr =
            x / block_size loopmax nthr * block_size loopmax nthr +
              block_size loopmax nthr := Nat.succ_mul _ _
        omega
      · exact hx
  · rintro ⟨d, hd, hmem⟩
    rw [List.mem_map] at hd
    obtain ⟨i, hi, rfl⟩ := hd
    exact lt_of_lt_of_le hmem.2 (min_le_right _ _)

lemma canonical_size_le {loopmax nthr : Nat} (hL : 0 < loopmax) (hn : 0 < nthr) :
    ∀ d ∈ (List.range (adjusted_nthr loopmax nthr)).map (clampedRange loopmax nthr),
      d.max - d.min ≤ block_size loopmax nthr := by
  intro d hd
  rw [List.mem_map] at hd
  obtain ⟨i, hi, rfl⟩ := hd
  show min ((i + 1) * block_size loopmax nthr) loopmax - i * block_size loopmax nthr ≤ _
  have h1 : min ((i + 1) * block_size loopmax nthr) loopmax ≤
      (i + 1) * block_size loopmax nthr := min_le_left _ _
  have h2 : (i + 1) * block_size loopmax nthr =
      i * block_size loopmax nthr + block_size loopmax nthr := Nat.succ_mul _ _
  omega

end SpawnLoop

namespace SpawnLoop

/-! ### The claims -/

/-- C1: for every `loopmax > 0` and every `requestedWorkers > 0`, one call to
`X(spawn_loop)` completes (the assertions pass) and the iteration ranges it
produces exactly partition `[0, loopmax)`: they are pairwise disjoint, sorted
ascending by `thr_num`, and their union is the full interval `[0, loopmax)`. -/
theorem spawn_loop_partitions_loopspace (loopmax nthr : Nat)
    (hL : 0 < loopmax) (hn : 0 < nthr) :
    ∃ evs, spawn_loop_explicit loopmax nthr = some evs ∧
      List.Pairwise
        (fun a b => (∀ x : Nat, ¬(inRange a x ∧ inRange b x)) ∧ a.thr_num < b.thr_num)
        (ranges evs) ∧
      (∀ x : Nat, x < loopmax ↔ ∃ d ∈ ranges evs, inRange d x) := by
  refine ⟨spawn_loop_explicit_body loopmax nthr, ?_, ?_, ?_⟩
  · unfold spawn_loop_explicit
    rw [if_pos ⟨hL, hn⟩]
  · rw [explicit_ranges_eq hL hn]
    exact canonical_pairwise hL hn
  · intro x
    rw [explicit_ranges_eq hL hn]
    exact canonical_cover hL hn x

/-- Witness for C1 at `loopmax = 5`, `nthr = 4`. -/
theorem spawn_loop_partitions_loopspace_witness :
    0 < 5 ∧ 0 < 4 ∧
      (∃ evs, spawn_loop_explicit 5 4 = some evs ∧
        List.Pairwise
          (fun a b => (∀ x : Nat, ¬(inRange a x ∧ inRange b x)) ∧ a.thr_num < b.thr_num)
          (ranges evs) ∧
        (∀ x : Nat, x < 5 ↔ ∃ d ∈ ranges evs, inRange d x)) :=
  ⟨by decide, by decide,
    spawn_loop_partitions_loopspace 5 4 (by decide) (by decide)⟩

/-- C2: for every `loopmax > 0` and `requestedWorkers > 0`, the partitioner
computes `block_size = ⌈loopmax / requestedWorkers⌉`, the adjusted worker
count satisfies `1 ≤ actualWorkers ≤ min loopmax requestedWorkers`, and the
size of every produced range — in particular the largest one, the critical
path — never exceeds `⌈loopmax / requestedWorkers⌉`. -/
theorem adjusted_nthr_bounds_and_critical_path (loopmax nthr : Nat)
    (hL : 0 < loopmax) (hn : 0 < nthr) :
    block_size loopmax nthr = loopmax ⌈/⌉ nthr ∧
    1 ≤ adjusted_nthr loopmax nthr ∧
    adjusted_nthr loopmax nthr ≤ min loopmax nthr ∧
    ∀ d ∈ ranges (spawn_loop_explicit_body loopmax nthr),
      d.max - d.min ≤ block_size loopmax nthr := by
  refine ⟨(Nat.ceilDiv_eq_add_pred_div _ _).symm, adjusted_nthr_pos hL hn,
    le_min (adjusted_nthr_le_loopmax hL hn) (adjusted_nthr_le_nthr hL hn), ?_⟩
  rw [explicit_ranges_eq hL hn]
  exact canonical_size_le hL hn

/-- Witness for C2 at `loopmax = 7`, `nthr = 3`. -/
theorem adjusted_nthr_bounds_and_critical_path_witness :
    0 < 7 ∧ 0 < 3 ∧
      (block_size 7 3 = 7 ⌈/⌉ 3 ∧
       1 ≤ adjusted_nthr 7 3 ∧
       adjusted_nthr 7 3 ≤ min 7 3 ∧
       ∀ d ∈ ranges (spawn_loop_explicit_body 7 3), d.max - d.min ≤ block_size 7 3) :=
  ⟨by decide, by decide,
    adjusted_nthr_bounds_and_critical_path 7 3 (by decide) (by decide)⟩

/-- C3: whenever the adjusted worker count is `≤ 1` — in particular for
`loopmax = 1` with any `requestedWorkers > 0` and for `requestedWorkers = 1`
with any `loopmax > 0` — `X(spawn_loop)` invokes the work function exactly
once, synchronously in the calling thread, on the single full range
`[0, loopmax)` with `thr_num = 0`, and spawns no thread. -/
theorem spawn_loop_single_range_sync (loopmax nthr : Nat)
    (hL : 0 < loopmax) (hn : 0 < nthr)
    (h1 : adjusted_nthr loopmax nthr ≤ 1) :
    spawn_loop_explicit loopmax nthr = some [Event.callSync ⟨0, loopmax, 0⟩] ∧
    (spawn_loop_explicit_body loopmax nthr).filter Event.isSpawn = [] ∧
    adjusted_nthr 1 nthr = 1 ∧
    adjusted_nthr loopmax 1 = 1 := by
  have hbody : spawn_loop_explicit_body loopmax nthr =
      [Event.callSync ⟨0, loopmax, 0⟩] := by
    unfold spawn_loop_explicit_body
    rw [if_pos h1]
  refine ⟨?_, ?_, ?_, ?_⟩
  · unfold spawn_loop_explicit
    rw [if_pos ⟨hL, hn⟩, hbody]
  · rw [hbody]
    rfl
  · exact Nat.le_antisymm (adjusted_nthr_le_loopmax Nat.one_pos hn)
      (adjusted_nthr_pos Nat.one_pos hn)
  · exact Nat.le_antisymm (adjusted_nthr_le_nthr hL Nat.one_pos)
      (adjusted_nthr_pos hL Nat.one_pos)

/-- Witness for C3 at `loopmax = 1`, `nthr = 8` (the spec's first example;
`adjusted_nthr 1 8 = 1`). -/
theorem spawn_loop_single_range_sync_witness :
    0 < 1 ∧ 0 < 8 ∧ adjusted_nthr 1 8 ≤ 1 ∧
      (spawn_loop_explicit 1 8 = some [Event.callSync ⟨0, 1, 0⟩] ∧
       (spawn_loop_explicit_body 1 8).filter Event.isSpawn = [] ∧
       adjusted_nthr 1 8 = 1 ∧
       adjusted_nthr 1 1 = 1) :=
  ⟨by decide, by decide, by decide,
    spawn_loop_single_range_sync 1 8 (by decide) (by decide) (by decide)⟩

/-- C4: for `loopmax = 5`, `requestedWorkers = 4` the partitioner computes
`block_size = 2` and `actualWorkers = 3`, and the call produces exactly the
ranges `[0,2)`, `[2,4)`, `[4,5)` with `thr_num` `0`, `1`, `2`, the first two
handed to spawned threads and the last executed in the calling thread; the
compiler-managed path computes the same three ranges. -/
theorem spawn_loop_example_5_4 :
    block_size 5 4 = 2 ∧ adjusted_nthr 5 4 = 3 ∧
    spawn_loop_explicit 5 4 =
      some [Event.spawn ⟨0, 2, 0⟩, Event.spawn ⟨2, 4, 1⟩, Event.callSync ⟨4, 5, 2⟩] ∧
    ranges (spawn_loop_explicit_body 5 4) = [⟨0, 2, 0⟩, ⟨2, 4, 1⟩, ⟨4, 5, 2⟩] ∧
    ranges (spawn_loop_compiler_body 5 4) = [⟨0, 2, 0⟩, ⟨2, 4, 1⟩, ⟨4, 5, 2⟩] := by
  decide

end SpawnLoop

namespace SpawnLoop

/-- C5: whenever the adjusted worker count is `> 1` on the
explicit-thread-spawning path, `X(spawn_loop)` performs exactly
`actualWorkers` work-function invocations: the first `actualWorkers - 1`
events, in ascending `thr_num` order, spawn one worker thread each on the
unclamped ranges `[i*block_size, i*block_size + block_size)`, and the final
event — the only non-spawn one — executes the work function synchronously in
the calling thread on the last range, which ends at `loopmax` and carries the
highest `thr_num`. -/
theorem spawn_loop_multi_spawn_structure (loopmax nthr : Nat)
    (hL : 0 < loopmax) (hn : 0 < nthr)
    (h2 : 1 < adjusted_nthr loopmax nthr) :
    ∃ evs, spawn_loop_explicit loopmax nthr = some evs ∧
      evs.length = adjusted_nthr loopmax nthr ∧
      (evs.filter Event.isSpawn).length = adjusted_nthr loopmax nthr - 1 ∧
      (∀ i, i < adjusted_nthr loopmax nthr - 1 →
        evs[i]? = some (Event.spawn ⟨i * block_size loopmax nthr,
          i * block_size loopmax nthr + block_size loopmax nthr, i⟩)) ∧
      evs[adjusted_nthr loopmax nthr - 1]? =
        some (Event.callSync ⟨(adjusted_nthr loopmax nthr - 1) * block_size loopmax nthr,
          loopmax, adjusted_nthr loopmax nthr - 1⟩) := by
  have hbody : spawn_loop_explicit_body loopmax nthr =
      (List.range (adjusted_nthr loopmax nthr - 1)).map
          (fun i => Event.spawn ⟨i * block_size loopmax nthr,
            i * block_size loopmax nthr + block_size loopmax nthr, i⟩) ++
        [Event.callSync ⟨(adjusted_nthr loopmax nthr - 1) * block_size loopmax nthr,
          loopmax, adjusted_nthr loopmax nthr - 1⟩] := by
    unfold spawn_loop_explicit_body
    rw [if_neg (by omega)]
  have hlen : ((List.range (adjusted_nthr loopmax nthr - 1)).map
      (fun i => Event.spawn ⟨i * block_size loopmax nthr,
        i * block_size loopmax nthr + block_size loopmax nthr, i⟩)).length =
      adjusted_nthr loopmax nthr - 1 := by
    rw [List.length_map, List.length_range]
  refine ⟨spawn_loop_explicit_body loopmax nthr, ?_, ?_, ?_, ?_, ?_⟩
  · unfold spawn_loop_explicit
    rw [if_pos ⟨hL, hn⟩]
  · rw [hbody, List.length_append, hlen]
    simp only [List.length_cons, List.length_nil]
    omega
  · rw [hbody, List.filter_append]
    have hall : ((List.range (adjusted_nthr loopmax nthr - 1)).map
        (fun i => Event.spawn ⟨i * block_size loopmax nthr,
          i * block_size loopmax nthr + block_size loopmax nthr, i⟩)).filter
          Event.isSpawn =
        (List.range (adjusted_nthr loopmax nthr - 1)).map
          (fun i => Event.spawn ⟨i * block_size loopmax nthr,
            i * block_size loopmax nthr + block_size loopmax nthr, i⟩) := by
      rw [List.filter_eq_self]
      intro a ha
      rw [List.mem_map] at ha
      obtain ⟨i, _, rfl⟩ := ha
      rfl
    rw [hall]
    show (_ ++ []).length = _
    rw [List.append_nil, hlen]
  · intro i hi
    rw [hbody, List.getElem?_append, if_pos (by rw [hlen]; exact hi),
      List.getElem?_map, List.getElem?_range hi]
    rfl
  · rw [hbody, List.getElem?_append, if_neg (by rw [hlen]; omega), hlen,
      Nat.sub_self]
    rfl

/-- Witness for C5 at `loopmax = 5`, `nthr = 4` (`adjusted_nthr 5 4 = 3`). -/
theorem spawn_loop_multi_spawn_structure_witness :
    0 < 5 ∧ 0 < 4 ∧ 1 < adjusted_nthr 5 4 ∧
      (∃ evs, spawn_loop_explicit 5 4 = some evs ∧
        evs.length = adjusted_nthr 5 4 ∧
        (evs.filter Event.isSpawn).length = adjusted_nthr 5 4 - 1 ∧
        (∀ i, i < adjusted_nthr 5 4 - 1 →
          evs[i]? = some (Event.spawn ⟨i * block_size 5 4,
            i * block_size 5 4 + block_size 5 4, i⟩)) ∧
        evs[adjusted_nthr 5 4 - 1]? =
          some (Event.callSync ⟨(adjusted_nthr 5 4 - 1) * block_size 5 4, 5,
            adjusted_nthr 5 4 - 1⟩)) :=
  ⟨by decide, by decide, by decide,
    spawn_loop_multi_spawn_structure 5 4 (by decide) (by decide) (by decide)⟩

end SpawnLoop

namespace SpawnLoop

/-- C6: when no threading backend is compiled in, `X(threads_init)` returns
the distinguished non-zero "threads unsupported" status `-31416`, and every
call to `X(spawn_loop)` with `loopmax > 0` degrades to the single-range
synchronous path — the work function is invoked exactly once, in the calling
thread, on `[0, loopmax)` with `thr_num = 0` — whatever `nthr` is. -/
theorem nothreads_degrades_to_sync (loopmax nthr : Nat) (hL : 0 < loopmax) :
    threads_init_nothreads ≠ 0 ∧
    spawn_loop_nothreads loopmax nthr = some [Event.callSync ⟨0, loopmax, 0⟩] :=
  ⟨by decide, rfl⟩

/-- Witness for C6 at `loopmax = 100`, `nthr = 7`. -/
theorem nothreads_degrades_to_sync_witness :
    0 < 100 ∧
      (threads_init_nothreads ≠ 0 ∧
       spawn_loop_nothreads 100 7 = some [Event.callSync ⟨0, 100, 0⟩]) :=
  ⟨by decide, nothreads_degrades_to_sync 100 7 (by decide)⟩

/-- C7 (counterexample): the claim says the precondition violation
`loopmax == 0 ∨ nthr == 0` is caught by a defensive assertion in *every*
build variant of the dispatcher.  The `! HAVE_THREADS` variant (threads.c
lines 366-377) contains no `A(...)` at all: at `loopmax = 0`, `nthr = 0` it
completes and silently hands the empty range `[0, 0)` to the work function
instead of failing an assertion. -/
theorem nothreads_no_assertion_cx :
    spawn_loop_nothreads 0 0 = some [Event.callSync ⟨0, 0, 0⟩] ∧
    spawn_loop_nothreads 0 0 ≠ none := by
  decide

/-- C7 (amended): in the `HAVE_THREADS` build variants of `X(spawn_loop)`
(explicit spawning and compiler-managed), a call with `loopmax == 0` or
`nthr == 0` is caught by the defensive `A(...)` assertions (threads.c lines
286-287) and does not pass through; the `! HAVE_THREADS` variant performs no
check and silently executes the single range `[0, loopmax)`. -/
theorem assertion_threaded_variants_only (loopmax nthr : Nat)
    (h : loopmax = 0 ∨ nthr = 0) :
    spawn_loop_explicit loopmax nthr = none ∧
    spawn_loop_compiler loopmax nthr = none ∧
    spawn_loop_nothreads loopmax nthr = some [Event.callSync ⟨0, loopmax, 0⟩] := by
  refine ⟨?_, ?_, rfl⟩
  · unfold spawn_loop_explicit
    rw [if_neg (by omega)]
  · unfold spawn_loop_compiler
    rw [if_neg (by omega)]

/-- Witness for the amended C7 at `loopmax = 0`, `nthr = 5`. -/
theorem assertion_threaded_variants_only_witness :
    ((0 : Nat) = 0 ∨ (5 : Nat) = 0) ∧
      (spawn_loop_explicit 0 5 = none ∧
       spawn_loop_compiler 0 5 = none ∧
       spawn_loop_nothreads 0 5 = some [Event.callSync ⟨0, 0, 0⟩]) :=
  ⟨by decide, assertion_threaded_variants_only 0 5 (by decide)⟩

/-- C8: the partitioning is deterministic — a pure function of the call
arguments.  Two calls of `X(spawn_loop)` with identical `loopmax` and `nthr`
compute the same `block_size`, the same adjusted worker count, and the same
full sequence of ranges `(min, max, thr_num)`, on every build path. -/
theorem spawn_loop_deterministic (loopmax1 nthr1 loopmax2 nthr2 : Nat)
    (hl : loopmax1 = loopmax2) (hn : nthr1 = nthr2) :
    block_size loopmax1 nthr1 = block_size loopmax2 nthr2 ∧
    adjusted_nthr loopmax1 nthr1 = adjusted_nthr loopmax2 nthr2 ∧
    spawn_loop_explicit loopmax1 nthr1 = spawn_loop_explicit loopmax2 nthr2 ∧
    spawn_loop_compiler loopmax1 nthr1 = spawn_loop_compiler loopmax2 nthr2 ∧
    ranges (spawn_loop_explicit_body loopmax1 nthr1) =
      ranges (spawn_loop_explicit_body loopmax2 nthr2) := by
  subst hl
  subst hn
  exact ⟨rfl, rfl, rfl, rfl, rfl⟩

/-- Witness for C8 at two identical calls with `loopmax = 9`, `nthr = 2`. -/
theorem spawn_loop_deterministic_witness :
    (9 : Nat) = 9 ∧ (2 : Nat) = 2 ∧
      (block_size 9 2 = block_size 9 2 ∧
       adjusted_nthr 9 2 = adjusted_nthr 9 2 ∧
       spawn_loop_explicit 9 2 = spawn_loop_explicit 9 2 ∧
       spawn_loop_compiler 9 2 = spawn_loop_compiler 9 2 ∧
       ranges (spawn_loop_explicit_body 9 2) = ranges (spawn_loop_explicit_body 9 2)) :=
  ⟨rfl, rfl, spawn_loop_deterministic 9 2 9 2 rfl rfl⟩

/-- C9: on the explicit-thread-spawning path the non-final ranges are
written without clamping as `[i*block_size, i*block_size + block_size)`, and
this is always in bounds: for `loopmax > 0`, `nthr > 0`, every
`i < actualWorkers - 1` has `(i+1) * block_size ≤ loopmax`, the final range
`[(actualWorkers-1)*block_size, loopmax)` is non-empty, and consequently
every produced range ends at or before `loopmax`. -/
theorem unclamped_ranges_in_bounds (loopmax nthr : Nat)
    (hL : 0 < loopmax) (hn : 0 < nthr) :
    (∀ i, i < adjusted_nthr loopmax nthr - 1 →
      (i + 1) * block_size loopmax nthr ≤ loopmax) ∧
    (adjusted_nthr loopmax nthr - 1) * block_size loopmax nthr < loopmax ∧
    (∀ d ∈ ranges (spawn_loop_explicit_body loopmax nthr), d.max ≤ loopmax) := by
  refine ⟨?_, pred_adjusted_mul_lt hL hn, ?_⟩
  · intro i hi
    calc (i + 1) * block_size loopmax nthr
        ≤ (adjusted_nthr loopmax nthr - 1) * block_size loopmax nthr :=
          Nat.mul_le_mul_right _ (by omega)
      _ ≤ loopmax := Nat.le_of_lt (pred_adjusted_mul_lt hL hn)
  · rw [explicit_ranges_eq hL hn]
    intro d hd
    rw [List.mem_map] at hd
    obtain ⟨i, hi, rfl⟩ := hd
    exact min_le_right _ _

/-- Witness for C9 at `loopmax = 5`, `nthr = 3`. -/
theorem unclamped_ranges_in_bounds_witness :
    0 < 5 ∧ 0 < 3 ∧
      ((∀ i, i < adjusted_nthr 5 3 - 1 → (i + 1) * block_size 5 3 ≤ 5) ∧
       (adjusted_nthr 5 3 - 1) * block_size 5 3 < 5 ∧
       (∀ d ∈ ranges (spawn_loop_explicit_body 5 3), d.max ≤ 5)) :=
  ⟨by decide, by decide, unclamped_ranges_in_bounds 5 3 (by decide) (by decide)⟩

/-- C10: for every `loopmax > 0` and `nthr > 0`, the compiler-managed
parallel-region path (which clamps every range max to `loopmax`) and the
explicit-thread-spawning path (which leaves the first `actualWorkers - 1`
ranges unclamped and sets the last range's max directly to `loopmax`) produce
exactly the same sequence of ranges `(min, max, thr_num)`. -/
theorem compiler_explicit_same_ranges (loopmax nthr : Nat)
    (hL : 0 < loopmax) (hn : 0 < nthr) :
    ranges (spawn_loop_compiler_body loopmax nthr) =
      ranges (spawn_loop_explicit_body loopmax nthr) :=
  (compiler_ranges_eq hL hn).trans (explicit_ranges_eq hL hn).symm

/-- Witness for C10 at `loopmax = 7`, `nthr = 3`. -/
theorem compiler_explicit_same_ranges_witness :
    0 < 7 ∧ 0 < 3 ∧
      ranges (spawn_loop_compiler_body 7 3) = ranges (spawn_loop_explicit_body 7 3) :=
  ⟨by decide, by decide, compiler_explicit_same_ranges 7 3 (by decide) (by decide)⟩

end SpawnLoop
